import Mathlib

/-!
Verification of the promplot repository: a shallow embedding of the chart
composition routine (`Plot` in plot.go) and of the command-line driver
(`main` and `fatal` in main.go), with theorems settling the frozen claims
about series-to-line translation, legend extraction, color assignment,
failure policy, determinism, and the fatal-error protocol.
-/

namespace Promplot

/-- One sample of a series: the Unix timestamp (seconds, what
`v.Timestamp.Unix()` returns) and the string form of the sample value
(what `v.Value.String()` returns, the input of `strconv.ParseFloat`). -/
structure SamplePair where
  timestamp : Int
  value : String
deriving DecidableEq

/-- One series of the query result: the string form of its metric labels
(what `sample.Metric.String()` returns) as a character list, and its
ordered samples.  Mirrors one entry of `model.Matrix`. -/
structure SampleStream where
  metric : List Char
  values : List SamplePair
deriving DecidableEq

/-- The query result: an ordered collection of series, iteration order as
delivered by the fetcher.  Mirrors `model.Matrix`. -/
abbrev Matrix := List SampleStream

/-- One line geometry added to the chart: its 2-D points (X, Y), the fixed
line width `vg.Points(1)` and the assigned palette color (modelled as the
numeric identity of the color value). -/
structure PlotLine (V : Type) where
  points : List (V × V)
  width : Nat
  color : Nat
deriving DecidableEq

/-- The composed chart: title, the line geometries in the order `p.Add`
received them, and the legend entries in the order `p.Legend.Add` received
them (label text paired with the index of the series it belongs to). -/
structure Chart (V : Type) where
  title : String
  lines : List (PlotLine V)
  legend : List (List Char × Nat)
deriving DecidableEq

/-- The opening curly brace character. -/
def lbrace : Char := Char.ofNat 123

/-- The closing curly brace character. -/
def rbrace : Char := Char.ofNat 125

/-- The newline character, which `.` in an RE2 regex does not match. -/
def newlineChar : Char := Char.ofNat 10

/-- The prefix of a character list up to (excluding) the first newline:
the span that `.*` in the regex `\x7b(.*)\x7d` is allowed to cross. -/
def untilNewline : List Char → List Char
  | [] => []
  | c :: rest => if c = newlineChar then [] else c :: untilNewline rest

/-- Scanning a reversed segment, drop everything up to and including the
first closing brace; `none` when the segment has no closing brace.  Used
to locate the last closing brace of a segment. -/
def dropToBrace : List Char → Option (List Char)
  | [] => none
  | c :: rest => if c = rbrace then some rest else dropToBrace rest

/-- The content before the last closing brace of a segment, if the segment
contains one. -/
def lastBefore (seg : List Char) : Option (List Char) :=
  (dropToBrace seg.reverse).map List.reverse

/-- Given the characters following an opening brace, the capture of the
greedy `(.*)` of the regex `\x7b(.*)\x7d` when the match starts at that
brace: everything up to the last closing brace on the same line, `none`
when no closing brace occurs before the next newline. -/
def matchAfterBrace (rest : List Char) : Option (List Char) :=
  lastBefore (untilNewline rest)

/-- The first capture group of `labelText.FindStringSubmatch`, where
`labelText = regexp.MustCompile("\\\x7b(.*)\\\x7d")`: RE2 leftmost-first
semantics scan for the first opening brace at which the whole pattern
matches; the greedy `(.*)` then extends to the last closing brace on that
line.  `none` models a nil submatch result. -/
def findSubmatch : List Char → Option (List Char)
  | [] => none
  | c :: rest =>
    if c = lbrace then
      match matchAfterBrace rest with
      | some m => some m
      | none => findSubmatch rest
    else findSubmatch rest

/-- The palette size fixed by `Plot` (`paletteSize := 8`). -/
def paletteSize : Nat := 8

/-- The inner loop of `Plot` over `sample.Values`: builds the `plotter.XYs`
slice pointwise, X from the Unix timestamp, Y from parsing the value
string; aborts with the source's error message at the first value whose
string form does not parse.  `parseFloat` stands for the external
`strconv.ParseFloat` and `tsFloat` for the `float64` conversion of the
timestamp. -/
def buildData {V : Type} (parseFloat : String → Option V) (tsFloat : Int → V) :
    List SamplePair → Except String (List (V × V))
  | [] => Except.ok []
  | v :: rest =>
    match parseFloat v.value with
    | none => Except.error ("sample value not float: " ++ v.value)
    | some f =>
      match buildData parseFloat tsFloat rest with
      | Except.error e => Except.error e
      | Except.ok d => Except.ok ((tsFloat v.timestamp, f) :: d)

/-- The outer loop of `Plot` over `metrics`, carried out on the chart
accumulator: for the series at position `s` it builds the point data, adds
a line of width 1 colored `colors[s % paletteSize]`, and, when the Matrix
has more than one series (`n > 1`), registers a legend entry whenever the
label regex finds a submatch on the series' metric string. -/
def plotLoop {V : Type} (parseFloat : String → Option V) (tsFloat : Int → V)
    (colors : List Nat) (n : Nat) :
    Nat → List SampleStream → Chart V → Except String (Chart V)
  | _, [], p => Except.ok p
  | s, sample :: rest, p =>
    match buildData parseFloat tsFloat sample.values with
    | Except.error e => Except.error e
    | Except.ok data =>
      let l : PlotLine V := ⟨data, 1, colors.getD (s % paletteSize) 0⟩
      let p1 : Chart V :=
        ⟨p.title, p.lines ++ [l],
          if n > 1 then
            match findSubmatch sample.metric with
            | some m => p.legend ++ [(m, s)]
            | none => p.legend
          else p.legend⟩
      plotLoop parseFloat tsFloat colors n (s + 1) rest p1

/-- Modelled from the spec: `draw.NewFormattedCanvas` is external library
code (gonum); per spec section 4.4 it fails with an unsupported-format
error when the format token is not a recognized raster or vector output
type.  The recognized tokens are the raster and vector image types the
renderer documents. -/
def supportedFormats : List String :=
  ["eps", "jpg", "jpeg", "pdf", "png", "svg", "tif", "tiff"]

/-- Modelled from the spec: the formatted-canvas constructor succeeds
exactly on recognized format tokens and otherwise reports the unsupported
token. -/
def newFormattedCanvas (format : String) : Except String Unit :=
  if format ∈ supportedFormats then Except.ok ()
  else Except.error ("unsupported format: " ++ format)

/-- The `Plot` function of plot.go.  Fonts and the brewer palette lookup
are library calls modelled as succeeding with fixed results; `colors`
stands for the 8-color Dark2 palette the source fetches.  The returned
chart stands for the buffered byte stream: the rendering (`p.Draw` and
`c.WriteTo`) is a deterministic library function of the composed chart and
the format, so the chart value determines the bytes. -/
def Plot {V : Type} (parseFloat : String → Option V) (tsFloat : Int → V)
    (colors : List Nat) (metrics : Matrix) (title format : String) :
    Except String (Chart V) :=
  match plotLoop parseFloat tsFloat colors metrics.length 0 metrics ⟨title, [], []⟩ with
  | Except.error e => Except.error e
  | Except.ok p =>
    match newFormattedCanvas format with
    | Except.error e => Except.error ("failed creating image canvas: " ++ e)
    | Except.ok _ => Except.ok p

/-- The points the spec prescribes for one series: X the Unix timestamp as
a float, Y the value parsed as a 64-bit float (the default is never used
on inputs whose values all parse). -/
def specPoints {V : Type} [Inhabited V] (parseFloat : String → Option V)
    (tsFloat : Int → V) (values : List SamplePair) : List (V × V) :=
  values.map (fun v => (tsFloat v.timestamp, (parseFloat v.value).getD default))

/-- The line geometry the loop produces for the series at position `s`. -/
def specLine {V : Type} [Inhabited V] (parseFloat : String → Option V)
    (tsFloat : Int → V) (colors : List Nat) (s : Nat) (st : SampleStream) :
    PlotLine V :=
  ⟨specPoints parseFloat tsFloat st.values, 1, colors.getD (s % paletteSize) 0⟩

/-- The line geometries the loop produces for a run of series starting at
position `s`. -/
def linesFrom {V : Type} [Inhabited V] (parseFloat : String → Option V)
    (tsFloat : Int → V) (colors : List Nat) :
    Nat → List SampleStream → List (PlotLine V)
  | _, [] => []
  | s, st :: rest =>
    specLine parseFloat tsFloat colors s st ::
      linesFrom parseFloat tsFloat colors (s + 1) rest

/-- The legend entries the loop produces for a run of series starting at
position `s`, in a Matrix of `n` series. -/
def legendFrom (n : Nat) : Nat → List SampleStream → List (List Char × Nat)
  | _, [] => []
  | s, st :: rest =>
    (if n > 1 then
      match findSubmatch st.metric with
      | some m => [(m, s)]
      | none => []
    else []) ++ legendFrom n (s + 1) rest

/-- The command-line flag values of main.go after `flag.Parse`: empty
string and zero duration are the unset defaults of the required flags. -/
structure Flags where
  silent : Bool
  versionFlag : Bool
  promServer : String
  query : String
  duration : Int
  title : String
  format : String
  file : String
  slackToken : String
  channel : String
deriving DecidableEq

/-- Equality of `Except` results is decidable when it is on both sides. -/
instance {ε α : Type} [DecidableEq ε] [DecidableEq α] :
    DecidableEq (Except ε α) := fun x y =>
  match x, y with
  | Except.error a, Except.error b =>
    if h : a = b then isTrue (by rw [h])
    else isFalse (by intro hc; injection hc with h2; exact h h2)
  | Except.error _, Except.ok _ => isFalse (by intro hc; cases hc)
  | Except.ok _, Except.error _ => isFalse (by intro hc; cases hc)
  | Except.ok a, Except.ok b =>
    if h : a = b then isTrue (by rw [h])
    else isFalse (by intro hc; injection hc with h2; exact h h2)

/-- Modelled from the spec: the outcomes of the external collaborator
calls main.go makes.  `promplot.Metrics` (the fetcher) and
`promplot.Slack` (the upload sink) are repository code absent from the
provided sources, and `os.Create` and `io.Copy` are standard library
calls; per spec section 6 each either succeeds or fails with an error. -/
structure Env where
  metricsRes : Except String Matrix
  createRes : Except String Unit
  copyRes : Except String Unit
  slackRes : Option String
deriving DecidableEq

/-- One line printed to the error stream: the usage message, an
informational progress message, or a fatal error message. -/
inductive ErrLine
  | usage
  | info (s : String)
  | fatalMsg (s : String)
deriving DecidableEq

/-- Whether an error-stream line is an informational progress message. -/
def isInfo : ErrLine → Bool
  | ErrLine.info _ => true
  | _ => false

/-- Whether an error-stream line is a fatal error message. -/
def isFatal : ErrLine → Bool
  | ErrLine.fatalMsg _ => true
  | _ => false

/-- How a run of `main` terminates: the `-version` early exit, the usage
exit for missing required flags, the exit taken by `fatal`, or normal
completion. -/
inductive Outcome
  | exitVersion
  | exitUsage
  | exitFatal
  | done
deriving DecidableEq

/-- The process exit status of each outcome: `os.Exit(0)` for `-version`,
`os.Exit(1)` after usage, `os.Exit(1)` inside `fatal`, and 0 on normal
return from `main`. -/
def exitCodeOf : Outcome → Nat
  | Outcome.exitVersion => 0
  | Outcome.exitUsage => 1
  | Outcome.exitFatal => 1
  | Outcome.done => 0

/-- The `log` helper of main.go: prints the message to the error stream
unless `-silent` is set. -/
def logLine (silent : Bool) (s : String) : List ErrLine :=
  if silent then [] else [ErrLine.info s]

/-- The `fatal` helper of main.go: on a non-nil error it prints
`fmt.Fprintf(os.Stderr, "msg: %v\n", err)` — the literal text `msg: `
followed by the error text, the `msg` argument unused — and exits with
status 1; on a nil error it does nothing. -/
def fatal (err : Option String) (msg : String) : Option (ErrLine × Nat) :=
  match err with
  | none => none
  | some e => some (ErrLine.fatalMsg ("msg: " ++ e), 1)

/-- A step of main.go that just called a fallible collaborator whose error
is `e`: `fatal` prints its line and the process stops with the fatal
outcome.  (The `none` branch of `fatal (some e) msg` is unreachable.) -/
def fatalStop (acc : List ErrLine) (e : String) (msg : String) :
    Outcome × List ErrLine :=
  match fatal (some e) msg with
  | some p => (Outcome.exitFatal, acc ++ [p.fst])
  | none => (Outcome.done, acc)

/-- The required-flags test of main.go line 75: server URL, query or
range missing, or no file and an incomplete slack credential pair. -/
def requiredMissing (fl : Flags) : Bool :=
  decide (fl.promServer = "" ∨ fl.query = "" ∨ fl.duration = 0 ∨
    (fl.file = "" ∧ (fl.slackToken = "" ∨ fl.channel = "")))

/-- The upload tail of `main`: when `-slack` is set, log, call
`promplot.Slack` and pass its error to `fatal`; then the final `Done`
log line. -/
def slackStep (env : Env) (fl : Flags) (acc : List ErrLine) :
    Outcome × List ErrLine :=
  if fl.slackToken ≠ "" then
    let acc1 := acc ++ logLine fl.silent ("Uploading to Slack channel " ++ fl.channel)
    match env.slackRes with
    | some e => fatalStop acc1 e "failed creating plot"
    | none => (Outcome.done, acc1 ++ logLine fl.silent "Done")
  else (Outcome.done, acc ++ logLine fl.silent "Done")

/-- The file-writing section of `main`: when `-file` is set, write the
plot to stdout (for `-`) or to a freshly created file, passing the
`os.Create` and `io.Copy` errors to `fatal`; then the upload tail. -/
def fileStep (env : Env) (fl : Flags) (acc : List ErrLine) :
    Outcome × List ErrLine :=
  if fl.file ≠ "" then
    if fl.file = "-" then
      let acc1 := acc ++ logLine fl.silent "Writing to stdout"
      match env.copyRes with
      | Except.error e => fatalStop acc1 e "failed copying file"
      | Except.ok _ => slackStep env fl acc1
    else
      let acc1 := acc ++ logLine fl.silent ("Writing to " ++ fl.file)
      match env.createRes with
      | Except.error e => fatalStop acc1 e "failed creating file"
      | Except.ok _ =>
        match env.copyRes with
        | Except.error e => fatalStop acc1 e "failed copying file"
        | Except.ok _ => slackStep env fl acc1
  else slackStep env fl acc

/-- The `main` function of main.go: the `-version` early exit, the
required-flags usage exit, the Prometheus query, the plot composition via
`Plot`, the file sink and the upload sink, each fallible step routed
through `fatal`.  The result is the termination outcome together with the
lines printed to the error stream. -/
def runMain {V : Type} (parseFloat : String → Option V) (tsFloat : Int → V)
    (colors : List Nat) (env : Env) (fl : Flags) : Outcome × List ErrLine :=
  if fl.versionFlag then (Outcome.exitVersion, [])
  else if requiredMissing fl then (Outcome.exitUsage, [ErrLine.usage])
  else
    let acc1 := logLine fl.silent ("Querying Prometheus " ++ fl.query)
    match env.metricsRes with
    | Except.error e => fatalStop acc1 e "failed getting metrics"
    | Except.ok metrics =>
      let acc2 := acc1 ++ logLine fl.silent ("Creating plot " ++ fl.title)
      match Plot parseFloat tsFloat colors metrics fl.title fl.format with
      | Except.error e => fatalStop acc2 e "failed creating plot"
      | Except.ok _ => fileStep env fl acc2

/-- The same flags with the silence switch replaced. -/
def setSilent (b : Bool) (fl : Flags) : Flags :=
  ⟨b, fl.versionFlag, fl.promServer, fl.query, fl.duration, fl.title,
    fl.format, fl.file, fl.slackToken, fl.channel⟩

/-- A concrete stand-in for `strconv.ParseFloat` that accepts every value
string, used to evaluate the theorems on concrete inputs. -/
def pfInt : String → Option Int := fun _ => some 0

/-- A concrete stand-in for `strconv.ParseFloat` that rejects every value
string. -/
def pfBad : String → Option Int := fun _ => none

/-- A concrete stand-in for the `float64` conversion of a timestamp. -/
def tsInt : Int → Int := fun t => t

/-- A concrete 8-color palette (color values numbered 0 through 7). -/
def palette8 : List Nat := [0, 1, 2, 3, 4, 5, 6, 7]

/-- A one-series Matrix with one sample. -/
def mW : Matrix := [⟨[], [⟨0, "x"⟩]⟩]

/-- The chart `Plot` composes from `mW` under `pfInt` and `tsInt`. -/
def chW : Chart Int := ⟨"t", [⟨[((0 : Int), (0 : Int))], 1, 0⟩], []⟩

/-- A nine-series Matrix, every series without samples and labels. -/
def mW9 : Matrix := List.replicate 9 ⟨[], []⟩

/-- The chart `Plot` composes from `mW9`: nine lines whose colors wrap
around the palette. -/
def c9W : Chart Int :=
  ⟨"t", [⟨[], 1, 0⟩, ⟨[], 1, 1⟩, ⟨[], 1, 2⟩, ⟨[], 1, 3⟩, ⟨[], 1, 4⟩,
    ⟨[], 1, 5⟩, ⟨[], 1, 6⟩, ⟨[], 1, 7⟩, ⟨[], 1, 0⟩], []⟩

/-- A Matrix holding a sample whose value string will fail to parse. -/
def mBad : Matrix := [⟨[], [⟨0, "bad"⟩]⟩]

/-- The characters of `metric_name`. -/
def namePart : List Char :=
  ['m', 'e', 't', 'r', 'i', 'c', '_', 'n', 'a', 'm', 'e']

/-- The characters of the label set `job="x",instance="y"`. -/
def labelPart : List Char :=
  ['j', 'o', 'b', '=', '\"', 'x', '\"', ',',
    'i', 'n', 's', 't', 'a', 'n', 'c', 'e', '=', '\"', 'y', '\"']

/-- The spec's label-extraction example input: `metric_name` followed by
the label set in curly braces. -/
def exampleMetric : List Char := namePart ++ lbrace :: (labelPart ++ rbrace :: [])

/-- A metric string with two brace pairs (the characters of `m`, then `a`
in braces, then `b` in braces). -/
def cexInput : List Char := ['m', lbrace, 'a', rbrace, lbrace, 'b', rbrace]

/-- What the greedy regex captures on `cexInput`: everything from after
the first opening brace to the last closing brace. -/
def cexCapture : List Char := ['a', rbrace, lbrace, 'b']

/-- An environment in which every collaborator call succeeds and the
fetch returns an empty Matrix. -/
def envOk : Env := ⟨Except.ok [], Except.ok (), Except.ok (), none⟩

/-- An environment in which the Prometheus fetch fails. -/
def envFetchFail : Env := ⟨Except.error "boom", Except.ok (), Except.ok (), none⟩

/-- Flags with `-version` set and every required flag left at its unset
default. -/
def flagsVersionEmpty : Flags := ⟨false, true, "", "", 0, "", "", "", "", ""⟩

/-- Flags with the query missing and the rest supplied. -/
def flagsNoQuery : Flags := ⟨false, false, "u", "", 1, "t", "png", "-", "", ""⟩

/-- Complete flags writing the plot to stdout. -/
def flagsOkFile : Flags := ⟨false, false, "u", "q", 1, "t", "png", "-", "", ""⟩

/-- The same complete flags with `-silent` set. -/
def flagsOkSilent : Flags := ⟨true, false, "u", "q", 1, "t", "png", "-", "", ""⟩

lemma untilNewline_append (b t : List Char) (hb : newlineChar ∉ b) :
    untilNewline (b ++ t) = b ++ untilNewline t := by
  induction b with
  | nil => rfl
  | cons c b ih =>
    have hc : c ≠ newlineChar := fun h => hb (h ▸ List.mem_cons_self c b)
    have hb2 : newlineChar ∉ b := fun h => hb (List.mem_cons_of_mem c h)
    simp [untilNewline, hc, ih hb2]

lemma mem_untilNewline {x : Char} : ∀ {l : List Char}, x ∈ untilNewline l → x ∈ l := by
  intro l
  induction l with
  | nil => intro h; exact absurd h (by simp [untilNewline])
  | cons c rest ih =>
    intro h
    by_cases hc : c = newlineChar
    · simp [untilNewline, hc] at h
    · rw [untilNewline, if_neg hc] at h
      rcases List.mem_cons.mp h with h1 | h2
      · exact h1 ▸ List.mem_cons_self c rest
      · exact List.mem_cons_of_mem c (ih h2)

lemma dropToBrace_append (u w : List Char) (hu : rbrace ∉ u) :
    dropToBrace (u ++ rbrace :: w) = some w := by
  induction u with
  | nil => simp [dropToBrace]
  | cons c u ih =>
    have hc : c ≠ rbrace := fun h => hu (h ▸ List.mem_cons_self c u)
    have hu2 : rbrace ∉ u := fun h => hu (List.mem_cons_of_mem c h)
    simp [dropToBrace, hc, ih hu2]

lemma findSubmatch_cons (c : Char) (rest : List Char) :
    findSubmatch (c :: rest) =
      if c = lbrace then
        match matchAfterBrace rest with
        | some m => some m
        | none => findSubmatch rest
      else findSubmatch rest := rfl

lemma matchAfterBrace_closed (b c : List Char) (hb : newlineChar ∉ b)
    (hc : rbrace ∉ c) : matchAfterBrace (b ++ rbrace :: c) = some b := by
  have hne : rbrace ≠ newlineChar := by decide
  rw [matchAfterBrace, untilNewline_append b (rbrace :: c) hb]
  rw [untilNewline, if_neg hne]
  have hrc : rbrace ∉ (untilNewline c).reverse := by
    intro h
    exact hc (mem_untilNewline (List.mem_reverse.mp h))
  rw [lastBefore]
  have : (b ++ rbrace :: untilNewline c).reverse =
      (untilNewline c).reverse ++ rbrace :: b.reverse := by
    simp [List.reverse_append]
  rw [this, dropToBrace_append _ _ hrc]
  simp

/-- Claim C2 counterexample: on the metric string `m` + `a`-in-braces +
`b`-in-braces, the source's greedy regex captures from after the first
opening brace all the way to the last closing brace, not only up to the
first closing brace as the claim states — the capture is the four
characters `a`, closing brace, opening brace, `b`, not the single
character `a`. -/
theorem labelText_nongreedy_cex :
    findSubmatch cexInput = some cexCapture ∧ cexCapture ≠ ['a'] := by
  constructor
  · decide
  · decide

/-- Claim C2 (amended): for every metric label string, the Series
Extractor captures the substring between the first opening brace that
begins a match and the last closing brace on the same line (greedy
first-match semantics); an input containing no opening brace yields no
submatch and hence no legend entry for that series. -/
theorem labelText_extraction :
    (∀ a b c : List Char, lbrace ∉ a → newlineChar ∉ b → rbrace ∉ c →
      findSubmatch (a ++ lbrace :: (b ++ rbrace :: c)) = some b) ∧
    (∀ l : List Char, lbrace ∉ l → findSubmatch l = none) := by
  constructor
  · intro a b c ha hb hc
    induction a with
    | nil =>
      rw [List.nil_append, findSubmatch_cons, if_pos rfl,
        matchAfterBrace_closed b c hb hc]
    | cons x a ih =>
      have hx : x ≠ lbrace := fun h => ha (h ▸ List.mem_cons_self x a)
      have ha2 : lbrace ∉ a := fun h => ha (List.mem_cons_of_mem x h)
      rw [List.cons_append, findSubmatch_cons, if_neg hx]
      exact ih ha2
  · intro l hl
    induction l with
    | nil => rfl
    | cons c rest ih =>
      have hc : c ≠ lbrace := fun h => hl (h ▸ List.mem_cons_self c rest)
      have hl2 : lbrace ∉ rest := fun h => hl (List.mem_cons_of_mem c h)
      rw [findSubmatch_cons, if_neg hc]
      exact ih hl2

/-- Witness for the amended claim C2: the spec's example metric string
yields the label set between the braces, and a brace-free input yields no
submatch. -/
theorem labelText_extraction_witness :
    findSubmatch exampleMetric = some labelPart ∧
    findSubmatch ['n', 'o'] = none :=
  ⟨labelText_extraction.1 namePart labelPart [] (by decide) (by decide)
      (by decide),
    labelText_extraction.2 ['n', 'o'] (by decide)⟩

lemma buildData_ok {V : Type} [Inhabited V] (pf : String → Option V)
    (ts : Int → V) (values : List SamplePair)
    (h : ∀ v ∈ values, (pf v.value).isSome) :
    buildData pf ts values = Except.ok (specPoints pf ts values) := by
  induction values with
  | nil => rfl
  | cons v rest ih =>
    obtain ⟨f, hf⟩ := Option.isSome_iff_exists.mp (h v (List.mem_cons_self v rest))
    have ih2 := ih (fun w hw => h w (List.mem_cons_of_mem v hw))
    simp [buildData, hf, ih2, specPoints]

lemma buildData_error_of_find {V : Type} (pf : String → Option V)
    (ts : Int → V) (values : List SamplePair) (w : SamplePair)
    (h : values.find? (fun v => (pf v.value).isNone) = some w) :
    buildData pf ts values = Except.error ("sample value not float: " ++ w.value) := by
  induction values with
  | nil => cases h
  | cons v rest ih =>
    cases hpf : pf v.value with
    | none =>
      have : v = w := by
        rw [List.find?_cons_of_pos _ (by simp [hpf])] at h
        exact Option.some.inj h
      rw [buildData, hpf, this]
    | some f =>
      have h2 : rest.find? (fun v => (pf v.value).isNone) = some w := by
        rwa [List.find?_cons_of_neg _ (by simp [hpf])] at h
      rw [buildData, hpf, ih h2]

lemma plotLoop_ok {V : Type} [Inhabited V] (pf : String → Option V)
    (ts : Int → V) (colors : List Nat) (n : Nat) :
    ∀ (streams : List SampleStream) (s0 : Nat) (acc : Chart V),
      (∀ st ∈ streams, ∀ v ∈ st.values, (pf v.value).isSome) →
      plotLoop pf ts colors n s0 streams acc =
        Except.ok ⟨acc.title, acc.lines ++ linesFrom pf ts colors s0 streams,
          acc.legend ++ legendFrom n s0 streams⟩ := by
  intro streams
  induction streams with
  | nil => intro s0 acc h; simp [plotLoop, linesFrom, legendFrom]
  | cons st rest ih =>
    intro s0 acc h
    have hst : ∀ v ∈ st.values, (pf v.value).isSome :=
      fun v hv => h st (List.mem_cons_self st rest) v hv
    have hrest : ∀ st' ∈ rest, ∀ v ∈ st'.values, (pf v.value).isSome :=
      fun st' hst' v hv => h st' (List.mem_cons_of_mem st hst') v hv
    rw [plotLoop, buildData_ok pf ts st.values hst]
    dsimp only
    rw [ih (s0 + 1) _ hrest]
    refine congrArg Except.ok ?_
    refine congrArg₂ (Chart.mk acc.title) ?_ ?_
    · simp [linesFrom, specLine]
    · by_cases hn : n > 1
      · cases hfm : findSubmatch st.metric with
        | some m => simp [legendFrom, hn, hfm]
        | none => simp [legendFrom, hn, hfm]
      · simp [legendFrom, hn]

lemma buildData_ok_exists {V : Type} (pf : String → Option V)
    (ts : Int → V) (values : List SamplePair)
    (h : ∀ v ∈ values, (pf v.value).isSome) :
    ∃ d, buildData pf ts values = Except.ok d := by
  induction values with
  | nil => exact ⟨[], rfl⟩
  | cons v rest ih =>
    obtain ⟨f, hf⟩ := Option.isSome_iff_exists.mp (h v (List.mem_cons_self v rest))
    obtain ⟨d, hd⟩ := ih (fun w hw => h w (List.mem_cons_of_mem v hw))
    exact ⟨(ts v.timestamp, f) :: d, by rw [buildData, hf, hd]⟩

lemma plotLoop_error {V : Type} (pf : String → Option V) (ts : Int → V)
    (colors : List Nat) (n : Nat) :
    ∀ (streams : List SampleStream) (s0 : Nat) (acc : Chart V),
      (∃ st ∈ streams, ∃ v ∈ st.values, pf v.value = none) →
      ∃ w : SamplePair, pf w.value = none ∧
        plotLoop pf ts colors n s0 streams acc =
          Except.error ("sample value not float: " ++ w.value) := by
  intro streams
  induction streams with
  | nil => rintro s0 acc ⟨st, hmem, -⟩; cases hmem
  | cons st rest ih =>
    intro s0 acc h
    by_cases hst : ∃ v ∈ st.values, pf v.value = none
    · have hne : st.values.find? (fun v => (pf v.value).isNone) ≠ none := by
        intro hnone
        rw [List.find?_eq_none] at hnone
        obtain ⟨v, hv, hn⟩ := hst
        exact hnone v hv (by simp [hn])
      obtain ⟨w, hw⟩ := Option.ne_none_iff_exists'.mp hne
      have hwn : pf w.value = none := by
        have := List.find?_some hw
        simpa [Option.isNone_iff_eq_none] using this
      refine ⟨w, hwn, ?_⟩
      rw [plotLoop, buildData_error_of_find pf ts st.values w hw]
    · obtain ⟨st', hmem, hbad⟩ := h
      have hst' : st' ∈ rest := by
        rcases List.mem_cons.mp hmem with h1 | h2
        · exact absurd (h1 ▸ hbad) hst
        · exact h2
      have hall : ∀ v ∈ st.values, (pf v.value).isSome := by
        intro v hv
        push_neg at hst
        exact Option.isSome_iff_ne_none.mpr (hst v hv)
      obtain ⟨d, hd⟩ := buildData_ok_exists pf ts st.values hall
      rw [plotLoop, hd]
      dsimp only
      exact ih (s0 + 1) _ ⟨st', hst', hbad⟩

lemma linesFrom_length {V : Type} [Inhabited V] (pf : String → Option V)
    (ts : Int → V) (colors : List Nat) :
    ∀ (streams : List SampleStream) (s0 : Nat),
      (linesFrom pf ts colors s0 streams).length = streams.length := by
  intro streams
  induction streams with
  | nil => intro s0; rfl
  | cons st rest ih => intro s0; simp [linesFrom, ih (s0 + 1)]

lemma linesFrom_map_points {V : Type} [Inhabited V] (pf : String → Option V)
    (ts : Int → V) (colors : List Nat) :
    ∀ (streams : List SampleStream) (s0 : Nat),
      (linesFrom pf ts colors s0 streams).map PlotLine.points =
        streams.map (fun st => specPoints pf ts st.values) := by
  intro streams
  induction streams with
  | nil => intro s0; rfl
  | cons st rest ih => intro s0; simp [linesFrom, specLine, ih (s0 + 1)]

lemma linesFrom_get_color {V : Type} [Inhabited V] (pf : String → Option V)
    (ts : Int → V) (colors : List Nat) :
    ∀ (streams : List SampleStream) (s0 i : Nat)
      (h : i < (linesFrom pf ts colors s0 streams).length),
      ((linesFrom pf ts colors s0 streams).get ⟨i, h⟩).color =
        colors.getD ((s0 + i) % paletteSize) 0 := by
  intro streams
  induction streams with
  | nil => intro s0 i h; exact absurd h (by simp [linesFrom])
  | cons st rest ih =>
    intro s0 i h
    cases i with
    | zero => simp [linesFrom, specLine]
    | succ i =>
      have h2 : i < (linesFrom pf ts colors (s0 + 1) rest).length := by
        simpa [linesFrom] using h
      have := ih (s0 + 1) i h2
      have harith : s0 + 1 + i = s0 + (i + 1) := by omega
      rw [harith] at this
      simpa [linesFrom] using this

lemma legendFrom_of_le_one (n : Nat) (hn : n ≤ 1) :
    ∀ (s0 : Nat) (streams : List SampleStream), legendFrom n s0 streams = [] := by
  intro s0 streams
  induction streams generalizing s0 with
  | nil => rfl
  | cons st rest ih =>
    have : ¬ n > 1 := by omega
    simp [legendFrom, this, ih (s0 + 1)]

lemma Plot_ok_char {V : Type} [Inhabited V] (pf : String → Option V)
    (ts : Int → V) (colors : List Nat) (metrics : Matrix)
    (title format : String) (c : Chart V)
    (h : Plot pf ts colors metrics title format = Except.ok c) :
    (∀ st ∈ metrics, ∀ v ∈ st.values, (pf v.value).isSome) ∧
    c = ⟨title, linesFrom pf ts colors 0 metrics,
      legendFrom metrics.length 0 metrics⟩ := by
  by_cases hb : ∃ st ∈ metrics, ∃ v ∈ st.values, pf v.value = none
  · obtain ⟨w, -, he⟩ :=
      plotLoop_error pf ts colors metrics.length metrics 0 ⟨title, [], []⟩ hb
    rw [Plot, he] at h
    cases h
  · push_neg at hb
    have hall : ∀ st ∈ metrics, ∀ v ∈ st.values, (pf v.value).isSome :=
      fun st hst v hv => Option.isSome_iff_ne_none.mpr (hb st hst v hv)
    have hloop := plotLoop_ok pf ts colors metrics.length metrics 0 ⟨title, [], []⟩ hall
    rw [Plot, hloop] at h
    cases hfmt : newFormattedCanvas format with
    | error e => rw [hfmt] at h; cases h
    | ok u =>
      rw [hfmt] at h
      refine ⟨hall, ?_⟩
      cases h
      rfl

/-- Claim C1: when `Plot` succeeds on a Matrix with at least one series,
the composed chart holds exactly one line geometry per Matrix entry, in
Matrix iteration order, and the points of the line for each series are
the series' samples with X the Unix timestamp converted to a float and Y
the value string parsed as a float (every value string parses). -/
theorem plot_line_geometries {V : Type} [Inhabited V]
    (pf : String → Option V) (ts : Int → V) (colors : List Nat)
    (metrics : Matrix) (title format : String) (c : Chart V)
    (hn : 1 ≤ metrics.length)
    (h : Plot pf ts colors metrics title format = Except.ok c) :
    c.lines.length = metrics.length ∧
    c.lines.map PlotLine.points =
      metrics.map (fun st => specPoints pf ts st.values) ∧
    ∀ st ∈ metrics, ∀ v ∈ st.values, (pf v.value).isSome := by
  obtain ⟨hall, rfl⟩ := Plot_ok_char pf ts colors metrics title format c h
  exact ⟨linesFrom_length pf ts colors metrics 0,
    linesFrom_map_points pf ts colors metrics 0, hall⟩

/-- Witness for claim C1: a one-series Matrix with one sample composes to
a chart with one line whose single point carries the timestamp and the
parsed value. -/
theorem plot_line_geometries_witness :
    chW.lines.length = mW.length ∧
    chW.lines.map PlotLine.points =
      mW.map (fun st => specPoints pfInt tsInt st.values) ∧
    ∀ st ∈ mW, ∀ v ∈ st.values, (pfInt v.value).isSome :=
  plot_line_geometries pfInt tsInt palette8 mW "t" "png" chW (by decide)
    (by decide)

/-- Claim C3: color assignment is a pure function of the series position:
in any chart `Plot` composes from a fixed 8-color palette, the line for
the series at position `i` carries color `palette[i mod 8]`, and hence
the lines at positions `i` and `i + 8` carry equal colors. -/
theorem plot_color_assignment {V : Type} [Inhabited V]
    (pf : String → Option V) (ts : Int → V) (colors : List Nat)
    (metrics : Matrix) (title format : String) (c : Chart V)
    (hlen : colors.length = paletteSize)
    (h : Plot pf ts colors metrics title format = Except.ok c) :
    (∀ i (hi : i < c.lines.length),
      (c.lines.get ⟨i, hi⟩).color = colors.getD (i % paletteSize) 0) ∧
    (∀ i (hi : i < c.lines.length) (hi8 : i + 8 < c.lines.length),
      (c.lines.get ⟨i, hi⟩).color = (c.lines.get ⟨i + 8, hi8⟩).color) := by
  obtain ⟨-, rfl⟩ := Plot_ok_char pf ts colors metrics title format c h
  constructor
  · intro i hi
    simpa using linesFrom_get_color pf ts colors metrics 0 i hi
  · intro i hi hi8
    have h1 := linesFrom_get_color pf ts colors metrics 0 i hi
    have h2 := linesFrom_get_color pf ts colors metrics 0 (i + 8) hi8
    rw [h1, h2]
    have : (0 + (i + 8)) % paletteSize = (0 + i) % paletteSize := by
      simp [paletteSize, Nat.add_mod_right]
    rw [this]

/-- Witness for claim C3: in the nine-series chart the first and the
ninth line carry the same palette color. -/
theorem plot_color_assignment_witness :
    (c9W.lines.get ⟨0, by decide⟩).color = (c9W.lines.get ⟨8, by decide⟩).color :=
  (plot_color_assignment pfInt tsInt palette8 mW9 "t" "png" c9W (by decide)
    (by decide)).2 0 (by decide) (by decide)

/-- Claim C4: a single-series Matrix composes to a chart with an empty
legend regardless of the series' label content, and the result of `Plot`
on a single series does not depend on the metric label string at all
(label extraction is never consulted). -/
theorem plot_single_series_legend {V : Type} [Inhabited V]
    (pf : String → Option V) (ts : Int → V) (colors : List Nat)
    (metrics : Matrix) (title format : String) (c : Chart V)
    (hn : metrics.length = 1)
    (h : Plot pf ts colors metrics title format = Except.ok c) :
    c.legend = [] ∧
    ∀ (m1 m2 : List Char) (vs : List SamplePair),
      Plot pf ts colors [⟨m1, vs⟩] title format =
        Plot pf ts colors [⟨m2, vs⟩] title format := by
  obtain ⟨-, rfl⟩ := Plot_ok_char pf ts colors metrics title format c h
  constructor
  · rw [hn]
    exact legendFrom_of_le_one 1 (le_refl 1) 0 metrics
  · intro m1 m2 vs
    rw [Plot, Plot]
    cases hbd : buildData pf ts vs with
    | error e => simp [plotLoop, hbd]
    | ok data => simp [plotLoop, hbd]

/-- Witness for claim C4: the one-series Matrix composes to a chart with
an empty legend. -/
theorem plot_single_series_legend_witness :
    chW.legend = [] ∧
    ∀ (m1 m2 : List Char) (vs : List SamplePair),
      Plot pfInt tsInt palette8 [⟨m1, vs⟩] "t" "png" =
        Plot pfInt tsInt palette8 [⟨m2, vs⟩] "t" "png" :=
  plot_single_series_legend pfInt tsInt palette8 mW "t" "png" chW (by decide)
    (by decide)

/-- Claim C5: when any sample value string in any series fails to parse,
`Plot` returns an error — the source's parse-error message naming a
failing value — and no chart at all. -/
theorem plot_parse_failure {V : Type} (pf : String → Option V)
    (ts : Int → V) (colors : List Nat) (metrics : Matrix)
    (title format : String)
    (h : ∃ st ∈ metrics, ∃ v ∈ st.values, pf v.value = none) :
    ∃ w : String, pf w = none ∧
      Plot pf ts colors metrics title format =
        Except.error ("sample value not float: " ++ w) := by
  obtain ⟨w, hw, he⟩ :=
    plotLoop_error pf ts colors metrics.length metrics 0 ⟨title, [], []⟩ h
  exact ⟨w.value, hw, by rw [Plot, he]⟩

/-- Witness for claim C5: a Matrix holding one unparseable value makes
`Plot` fail with the parse error. -/
theorem plot_parse_failure_witness :
    ∃ w : String, pfBad w = none ∧
      Plot pfBad tsInt palette8 mBad "t" "png" =
        Except.error ("sample value not float: " ++ w) :=
  plot_parse_failure pfBad tsInt palette8 mBad "t" "png"
    ⟨⟨[], [⟨0, "bad"⟩]⟩, by decide, ⟨0, "bad"⟩, by decide, rfl⟩

/-- Claim C6: `Plot` is deterministic as a two-run property — two runs on
the same Matrix, title and format token (with the fixed palette and the
fixed parse and conversion functions) produce equal composed charts and
hence byte-identical rendered streams. -/
theorem plot_deterministic {V : Type} (pf : String → Option V)
    (ts : Int → V) (colors : List Nat) (metrics : Matrix)
    (title format : String) (c1 c2 : Chart V)
    (h1 : Plot pf ts colors metrics title format = Except.ok c1)
    (h2 : Plot pf ts colors metrics title format = Except.ok c2) :
    c1 = c2 := by
  rw [h1] at h2
  exact Except.ok.inj h2

/-- Witness for claim C6: two runs on the concrete one-series Matrix
yield the same chart. -/
theorem plot_deterministic_witness : chW = chW :=
  plot_deterministic pfInt tsInt palette8 mW "t" "png" chW chW (by decide)
    (by decide)

/-- Claim C7: when the format token is not a recognized output type (and
the data itself composes), `Plot` propagates the formatted-canvas
construction error and returns no byte stream. -/
theorem plot_unsupported_format {V : Type} [Inhabited V]
    (pf : String → Option V) (ts : Int → V) (colors : List Nat)
    (metrics : Matrix) (title format : String)
    (hf : format ∉ supportedFormats)
    (hp : ∀ st ∈ metrics, ∀ v ∈ st.values, (pf v.value).isSome) :
    Plot pf ts colors metrics title format =
      Except.error ("failed creating image canvas: " ++
        ("unsupported format: " ++ format)) := by
  rw [Plot, plotLoop_ok pf ts colors metrics.length metrics 0 ⟨title, [], []⟩ hp]
  simp [newFormattedCanvas, hf]

/-- Witness for claim C7: the unrecognized token `bmp` makes `Plot` fail
with the canvas error. -/
theorem plot_unsupported_format_witness :
    Plot pfInt tsInt palette8 mW "t" "bmp" =
      Except.error ("failed creating image canvas: " ++
        ("unsupported format: " ++ "bmp")) :=
  plot_unsupported_format pfInt tsInt palette8 mW "t" "bmp" (by decide)
    (by decide)

@[simp] lemma isFatal_info (s : String) : isFatal (ErrLine.info s) = false := rfl

@[simp] lemma isFatal_usage : isFatal ErrLine.usage = false := rfl

@[simp] lemma isFatal_fatalMsg (s : String) :
    isFatal (ErrLine.fatalMsg s) = true := rfl

@[simp] lemma isInfo_info (s : String) : isInfo (ErrLine.info s) = true := rfl

@[simp] lemma isInfo_usage : isInfo ErrLine.usage = false := rfl

@[simp] lemma isInfo_fatalMsg (s : String) :
    isInfo (ErrLine.fatalMsg s) = false := rfl

@[simp] lemma logLine_true (s : String) : logLine true s = [] := rfl

@[simp] lemma filter_isFatal_logLine (b : Bool) (s : String) :
    (logLine b s).filter isFatal = [] := by
  cases b <;> simp [logLine]

@[simp] lemma setSilent_silent (b : Bool) (fl : Flags) :
    (setSilent b fl).silent = b := rfl

@[simp] lemma setSilent_versionFlag (b : Bool) (fl : Flags) :
    (setSilent b fl).versionFlag = fl.versionFlag := rfl

@[simp] lemma setSilent_promServer (b : Bool) (fl : Flags) :
    (setSilent b fl).promServer = fl.promServer := rfl

@[simp] lemma setSilent_query (b : Bool) (fl : Flags) :
    (setSilent b fl).query = fl.query := rfl

@[simp] lemma setSilent_duration (b : Bool) (fl : Flags) :
    (setSilent b fl).duration = fl.duration := rfl

@[simp] lemma setSilent_title (b : Bool) (fl : Flags) :
    (setSilent b fl).title = fl.title := rfl

@[simp] lemma setSilent_format (b : Bool) (fl : Flags) :
    (setSilent b fl).format = fl.format := rfl

@[simp] lemma setSilent_file (b : Bool) (fl : Flags) :
    (setSilent b fl).file = fl.file := rfl

@[simp] lemma setSilent_slackToken (b : Bool) (fl : Flags) :
    (setSilent b fl).slackToken = fl.slackToken := rfl

@[simp] lemma setSilent_channel (b : Bool) (fl : Flags) :
    (setSilent b fl).channel = fl.channel := rfl

@[simp] lemma requiredMissing_setSilent (b : Bool) (fl : Flags) :
    requiredMissing (setSilent b fl) = requiredMissing fl := rfl

lemma slackStep_fst (env : Env) (fl : Flags) (acc1 acc2 : List ErrLine)
    (b : Bool) :
    (slackStep env (setSilent b fl) acc1).fst = (slackStep env fl acc2).fst := by
  by_cases ht : fl.slackToken ≠ ""
  · cases hs : env.slackRes with
    | some e => simp [slackStep, ht, hs, fatalStop, fatal]
    | none => simp [slackStep, ht, hs]
  · simp [slackStep, ht]

lemma slackStep_filter_fatal (env : Env) (fl : Flags)
    (acc1 acc2 : List ErrLine) (b : Bool)
    (hacc : acc1.filter isFatal = acc2.filter isFatal) :
    ((slackStep env (setSilent b fl) acc1).snd).filter isFatal =
      ((slackStep env fl acc2).snd).filter isFatal := by
  by_cases ht : fl.slackToken ≠ ""
  · cases hs : env.slackRes with
    | some e => simp [slackStep, ht, hs, fatalStop, fatal, hacc]
    | none => simp [slackStep, ht, hs, hacc]
  · simp [slackStep, ht, hacc]

lemma slackStep_info (env : Env) (fl : Flags) (acc : List ErrLine)
    (hs : fl.silent = true) (hacc : acc.filter isInfo = []) :
    ((slackStep env fl acc).snd).filter isInfo = [] := by
  by_cases ht : fl.slackToken ≠ ""
  · cases hr : env.slackRes with
    | some e => simp [slackStep, ht, hr, fatalStop, fatal, hs, hacc]
    | none => simp [slackStep, ht, hr, hs, hacc]
  · simp [slackStep, ht, hs, hacc]

lemma slackStep_fatalmsg (env : Env) (fl : Flags) (acc : List ErrLine)
    (h : (slackStep env fl acc).fst = Outcome.exitFatal) :
    ∃ s, ErrLine.fatalMsg s ∈ (slackStep env fl acc).snd := by
  by_cases ht : fl.slackToken ≠ ""
  · cases hr : env.slackRes with
    | some e =>
      refine ⟨"msg: " ++ e, ?_⟩
      simp [slackStep, ht, hr, fatalStop, fatal]
    | none => rw [slackStep] at h; simp [ht, hr] at h
  · rw [slackStep] at h; simp [ht] at h

lemma slackStep_done (env : Env) (fl : Flags) (acc : List ErrLine)
    (h : (slackStep env fl acc).fst = Outcome.done) :
    fl.slackToken ≠ "" → env.slackRes = none := by
  intro ht
  cases hr : env.slackRes with
  | some e => rw [slackStep] at h; simp [ht, hr, fatalStop, fatal] at h
  | none => rfl

lemma fileStep_fst (env : Env) (fl : Flags) (acc1 acc2 : List ErrLine)
    (b : Bool) :
    (fileStep env (setSilent b fl) acc1).fst = (fileStep env fl acc2).fst := by
  by_cases hf1 : fl.file ≠ ""
  · by_cases hf2 : fl.file = "-"
    · cases hc : env.copyRes with
      | error e => simp [fileStep, hf1, hf2, hc, fatalStop, fatal]
      | ok u =>
        simp only [fileStep, setSilent_file, setSilent_silent, hf2, hc,
          if_pos hf1, if_pos rfl]
        exact slackStep_fst env fl _ _ b
    · cases hcr : env.createRes with
      | error e => simp [fileStep, hf1, hf2, hcr, fatalStop, fatal]
      | ok u =>
        cases hc : env.copyRes with
        | error e => simp [fileStep, hf1, hf2, hcr, hc, fatalStop, fatal]
        | ok u2 =>
          simp only [fileStep, setSilent_file, setSilent_silent, hcr, hc,
            if_pos hf1, if_neg hf2]
          exact slackStep_fst env fl _ _ b
  · push_neg at hf1
    have hne : ¬ fl.file ≠ "" := fun hcon => hcon hf1
    simp only [fileStep, setSilent_file, if_neg hne]
    exact slackStep_fst env fl _ _ b

lemma fileStep_filter_fatal (env : Env) (fl : Flags)
    (acc1 acc2 : List ErrLine) (b : Bool)
    (hacc : acc1.filter isFatal = acc2.filter isFatal) :
    ((fileStep env (setSilent b fl) acc1).snd).filter isFatal =
      ((fileStep env fl acc2).snd).filter isFatal := by
  by_cases hf1 : fl.file ≠ ""
  · by_cases hf2 : fl.file = "-"
    · cases hc : env.copyRes with
      | error e => simp [fileStep, hf1, hf2, hc, fatalStop, fatal, hacc]
      | ok u =>
        simp only [fileStep, setSilent_file, setSilent_silent, hf2, hc,
          if_pos hf1, if_pos rfl]
        exact slackStep_filter_fatal env fl _ _ b (by simp [hacc])
    · cases hcr : env.createRes with
      | error e => simp [fileStep, hf1, hf2, hcr, fatalStop, fatal, hacc]
      | ok u =>
        cases hc : env.copyRes with
        | error e => simp [fileStep, hf1, hf2, hcr, hc, fatalStop, fatal, hacc]
        | ok u2 =>
          simp only [fileStep, setSilent_file, setSilent_silent, hcr, hc,
            if_pos hf1, if_neg hf2]
          exact slackStep_filter_fatal env fl _ _ b (by simp [hacc])
  · push_neg at hf1
    have hne : ¬ fl.file ≠ "" := fun hcon => hcon hf1
    simp only [fileStep, setSilent_file, if_neg hne]
    exact slackStep_filter_fatal env fl _ _ b hacc

lemma fileStep_info (env : Env) (fl : Flags) (acc : List ErrLine)
    (hs : fl.silent = true) (hacc : acc.filter isInfo = []) :
    ((fileStep env fl acc).snd).filter isInfo = [] := by
  by_cases hf1 : fl.file ≠ ""
  · by_cases hf2 : fl.file = "-"
    · cases hc : env.copyRes with
      | error e => simp [fileStep, hf1, hf2, hc, fatalStop, fatal, hs, hacc]
      | ok u =>
        simp only [fileStep, hf2, hc, if_pos hf1, if_pos rfl]
        exact slackStep_info env fl _ hs (by simp [hs, hacc])
    · cases hcr : env.createRes with
      | error e => simp [fileStep, hf1, hf2, hcr, fatalStop, fatal, hs, hacc]
      | ok u =>
        cases hc : env.copyRes with
        | error e =>
          simp [fileStep, hf1, hf2, hcr, hc, fatalStop, fatal, hs, hacc]
        | ok u2 =>
          simp only [fileStep, hcr, hc, if_pos hf1, if_neg hf2]
          exact slackStep_info env fl _ hs (by simp [hs, hacc])
  · push_neg at hf1
    have hne : ¬ fl.file ≠ "" := fun hcon => hcon hf1
    simp only [fileStep, if_neg hne]
    exact slackStep_info env fl _ hs hacc

lemma fileStep_fatalmsg (env : Env) (fl : Flags) (acc : List ErrLine)
    (h : (fileStep env fl acc).fst = Outcome.exitFatal) :
    ∃ s, ErrLine.fatalMsg s ∈ (fileStep env fl acc).snd := by
  by_cases hf1 : fl.file ≠ ""
  · by_cases hf2 : fl.file = "-"
    · cases hc : env.copyRes with
      | error e =>
        refine ⟨"msg: " ++ e, ?_⟩
        simp [fileStep, hf1, hf2, hc, fatalStop, fatal]
      | ok u =>
        rw [fileStep] at h ⊢
        simp only [hf2, hc, if_pos hf1, if_pos rfl] at h ⊢
        exact slackStep_fatalmsg env fl _ h
    · cases hcr : env.createRes with
      | error e =>
        refine ⟨"msg: " ++ e, ?_⟩
        simp [fileStep, hf1, hf2, hcr, fatalStop, fatal]
      | ok u =>
        cases hc : env.copyRes with
        | error e =>
          refine ⟨"msg: " ++ e, ?_⟩
          simp [fileStep, hf1, hf2, hcr, hc, fatalStop, fatal]
        | ok u2 =>
          rw [fileStep] at h ⊢
          simp only [hcr, hc, if_pos hf1, if_neg hf2] at h ⊢
          exact slackStep_fatalmsg env fl _ h
  · push_neg at hf1
    have hne : ¬ fl.file ≠ "" := fun hcon => hcon hf1
    rw [fileStep] at h ⊢
    simp only [if_neg hne] at h ⊢
    exact slackStep_fatalmsg env fl _ h

lemma fileStep_done (env : Env) (fl : Flags) (acc : List ErrLine)
    (h : (fileStep env fl acc).fst = Outcome.done) :
    (fl.file ≠ "" → env.copyRes = Except.ok () ∧
      (fl.file ≠ "-" → env.createRes = Except.ok ())) ∧
    (fl.slackToken ≠ "" → env.slackRes = none) := by
  by_cases hf1 : fl.file ≠ ""
  · by_cases hf2 : fl.file = "-"
    · cases hc : env.copyRes with
      | error e => rw [fileStep] at h; simp [hf1, hf2, hc, fatalStop, fatal] at h
      | ok u =>
        rw [fileStep] at h
        simp only [hf2, hc, if_pos hf1, if_pos rfl] at h
        exact ⟨fun _ => ⟨rfl, fun hne => absurd hf2 hne⟩,
          slackStep_done env fl _ h⟩
    · cases hcr : env.createRes with
      | error e =>
        rw [fileStep] at h; simp [hf1, hf2, hcr, fatalStop, fatal] at h
      | ok u =>
        cases hc : env.copyRes with
        | error e =>
          rw [fileStep] at h; simp [hf1, hf2, hcr, hc, fatalStop, fatal] at h
        | ok u2 =>
          rw [fileStep] at h
          simp only [hcr, hc, if_pos hf1, if_neg hf2] at h
          exact ⟨fun _ => ⟨rfl, fun _ => rfl⟩, slackStep_done env fl _ h⟩
  · push_neg at hf1
    have hne : ¬ fl.file ≠ "" := fun hcon => hcon hf1
    rw [fileStep] at h
    simp only [if_neg hne] at h
    exact ⟨fun hcon => absurd hf1 hcon, slackStep_done env fl _ h⟩

lemma runMain_fst_silent {V : Type} (pf : String → Option V) (ts : Int → V)
    (colors : List Nat) (env : Env) (fl : Flags) (b : Bool) :
    (runMain pf ts colors env (setSilent b fl)).fst =
      (runMain pf ts colors env fl).fst := by
  by_cases hv : fl.versionFlag = true
  · simp [runMain, hv]
  · by_cases hr : requiredMissing fl = true
    · simp [runMain, hv, hr]
    · cases hm : env.metricsRes with
      | error e => simp [runMain, hv, hr, hm, fatalStop, fatal]
      | ok metrics =>
        cases hp : Plot pf ts colors metrics fl.title fl.format with
        | error e => simp [runMain, hv, hr, hm, hp, fatalStop, fatal]
        | ok ch =>
          simp only [runMain, setSilent_versionFlag, setSilent_silent,
            setSilent_query, setSilent_title, setSilent_format,
            requiredMissing_setSilent, if_neg hv, if_neg hr, hm, hp]
          exact fileStep_fst env fl _ _ b

lemma runMain_filter_fatal_silent {V : Type} (pf : String → Option V)
    (ts : Int → V) (colors : List Nat) (env : Env) (fl : Flags) (b : Bool) :
    ((runMain pf ts colors env (setSilent b fl)).snd).filter isFatal =
      ((runMain pf ts colors env fl).snd).filter isFatal := by
  by_cases hv : fl.versionFlag = true
  · simp [runMain, hv]
  · by_cases hr : requiredMissing fl = true
    · simp [runMain, hv, hr]
    · cases hm : env.metricsRes with
      | error e => simp [runMain, hv, hr, hm, fatalStop, fatal]
      | ok metrics =>
        cases hp : Plot pf ts colors metrics fl.title fl.format with
        | error e => simp [runMain, hv, hr, hm, hp, fatalStop, fatal]
        | ok ch =>
          simp only [runMain, setSilent_versionFlag, setSilent_silent,
            setSilent_query, setSilent_title, setSilent_format,
            requiredMissing_setSilent, if_neg hv, if_neg hr, hm, hp]
          exact fileStep_filter_fatal env fl _ _ b (by simp)

lemma runMain_info {V : Type} (pf : String → Option V) (ts : Int → V)
    (colors : List Nat) (env : Env) (fl : Flags) (hs : fl.silent = true) :
    ((runMain pf ts colors env fl).snd).filter isInfo = [] := by
  by_cases hv : fl.versionFlag = true
  · simp [runMain, hv]
  · by_cases hr : requiredMissing fl = true
    · simp [runMain, hv, hr]
    · cases hm : env.metricsRes with
      | error e => simp [runMain, hv, hr, hm, fatalStop, fatal, hs]
      | ok metrics =>
        cases hp : Plot pf ts colors metrics fl.title fl.format with
        | error e => simp [runMain, hv, hr, hm, hp, fatalStop, fatal, hs]
        | ok ch =>
          simp only [runMain, if_neg hv, if_neg hr, hm, hp]
          exact fileStep_info env fl _ hs (by simp [hs])

lemma runMain_fatalmsg {V : Type} (pf : String → Option V) (ts : Int → V)
    (colors : List Nat) (env : Env) (fl : Flags)
    (h : (runMain pf ts colors env fl).fst = Outcome.exitFatal) :
    ∃ s, ErrLine.fatalMsg s ∈ (runMain pf ts colors env fl).snd := by
  by_cases hv : fl.versionFlag = true
  · rw [runMain] at h; simp [hv] at h
  · by_cases hr : requiredMissing fl = true
    · rw [runMain] at h; simp [hv, hr] at h
    · cases hm : env.metricsRes with
      | error e =>
        refine ⟨"msg: " ++ e, ?_⟩
        simp [runMain, hv, hr, hm, fatalStop, fatal]
      | ok metrics =>
        cases hp : Plot pf ts colors metrics fl.title fl.format with
        | error e =>
          refine ⟨"msg: " ++ e, ?_⟩
          simp [runMain, hv, hr, hm, hp, fatalStop, fatal]
        | ok ch =>
          rw [runMain] at h ⊢
          simp only [if_neg hv, if_neg hr, hm, hp] at h ⊢
          exact fileStep_fatalmsg env fl _ h

lemma runMain_done {V : Type} (pf : String → Option V) (ts : Int → V)
    (colors : List Nat) (env : Env) (fl : Flags)
    (h : (runMain pf ts colors env fl).fst = Outcome.done) :
    (∃ m c, env.metricsRes = Except.ok m ∧
      Plot pf ts colors m fl.title fl.format = Except.ok c) ∧
    (fl.file ≠ "" → env.copyRes = Except.ok () ∧
      (fl.file ≠ "-" → env.createRes = Except.ok ())) ∧
    (fl.slackToken ≠ "" → env.slackRes = none) := by
  by_cases hv : fl.versionFlag = true
  · rw [runMain] at h; simp [hv] at h
  · by_cases hr : requiredMissing fl = true
    · rw [runMain] at h; simp [hv, hr] at h
    · cases hm : env.metricsRes with
      | error e => rw [runMain] at h; simp [hv, hr, hm, fatalStop, fatal] at h
      | ok metrics =>
        cases hp : Plot pf ts colors metrics fl.title fl.format with
        | error e =>
          rw [runMain] at h; simp [hv, hr, hm, hp, fatalStop, fatal] at h
        | ok ch =>
          rw [runMain] at h
          simp only [if_neg hv, if_neg hr, hm, hp] at h
          obtain ⟨h1, h2⟩ := fileStep_done env fl _ h
          exact ⟨⟨metrics, ch, rfl, hp⟩, h1, h2⟩

/-- Claim C9: every error is fatal and is printed to the error stream
despite the silence switch: the outcome and the fatal lines of a run do
not depend on the silence switch, a silent run prints no informational
lines, a fatal exit carries status 1 and a printed fatal message, and a
run completing normally had no failing step (metrics fetch, plot
composition, file creation and copy, and the upload all succeeded). -/
theorem main_errors_fatal {V : Type} (pf : String → Option V)
    (ts : Int → V) (colors : List Nat) (env : Env) (fl : Flags) (b : Bool) :
    ((runMain pf ts colors env (setSilent b fl)).fst =
      (runMain pf ts colors env fl).fst) ∧
    (((runMain pf ts colors env (setSilent b fl)).snd).filter isFatal =
      ((runMain pf ts colors env fl).snd).filter isFatal) ∧
    (fl.silent = true → ((runMain pf ts colors env fl).snd).filter isInfo = []) ∧
    ((runMain pf ts colors env fl).fst = Outcome.exitFatal →
      exitCodeOf (runMain pf ts colors env fl).fst = 1 ∧
      ∃ s, ErrLine.fatalMsg s ∈ (runMain pf ts colors env fl).snd) ∧
    ((runMain pf ts colors env fl).fst = Outcome.done →
      (∃ m c, env.metricsRes = Except.ok m ∧
        Plot pf ts colors m fl.title fl.format = Except.ok c) ∧
      (fl.file ≠ "" → env.copyRes = Except.ok () ∧
        (fl.file ≠ "-" → env.createRes = Except.ok ())) ∧
      (fl.slackToken ≠ "" → env.slackRes = none)) := by
  refine ⟨runMain_fst_silent pf ts colors env fl b,
    runMain_filter_fatal_silent pf ts colors env fl b,
    runMain_info pf ts colors env fl,
    fun h => ⟨by rw [h]; rfl, runMain_fatalmsg pf ts colors env fl h⟩,
    runMain_done pf ts colors env fl⟩

/-- Witness for claim C9: with a failing fetch and `-silent`, the run
prints no informational line yet prints the fatal message; with every
collaborator succeeding, the run completes and its fetch and plot steps
indeed succeeded. -/
theorem main_errors_fatal_witness :
    (((runMain pfInt tsInt palette8 envFetchFail flagsOkSilent).snd).filter
      isInfo = []) ∧
    (∃ s, ErrLine.fatalMsg s ∈
      (runMain pfInt tsInt palette8 envFetchFail flagsOkSilent).snd) ∧
    (∃ m c, envOk.metricsRes = Except.ok m ∧
      Plot pfInt tsInt palette8 m flagsOkFile.title flagsOkFile.format =
        Except.ok c) := by
  have h1 := main_errors_fatal pfInt tsInt palette8 envFetchFail
    flagsOkSilent true
  have h2 := main_errors_fatal pfInt tsInt palette8 envOk flagsOkFile true
  exact ⟨h1.2.2.1 rfl, (h1.2.2.2.1 (by decide)).2, (h2.2.2.2.2 (by decide)).1⟩

/-- Claim C8 counterexample: with the version flag set and every required
flag missing, the process prints the version and exits with status 0 —
no usage message and no non-zero exit, contradicting the claim's
`whenever`. -/
theorem usage_exit_cex :
    requiredMissing flagsVersionEmpty = true ∧
    runMain pfInt tsInt palette8 envOk flagsVersionEmpty =
      (Outcome.exitVersion, []) ∧
    exitCodeOf Outcome.exitVersion = 0 :=
  ⟨by decide, by decide, rfl⟩

/-- Claim C8 (amended): provided the version flag is not set, the process
exits with status 1 after printing the usage message whenever the server
URL, the query, or the lookback duration flag is missing/zero, or the
file path is empty while the upload credential pair is incomplete; with
the version flag set it prints the version and exits 0 instead. -/
theorem usage_exit_required {V : Type} (pf : String → Option V)
    (ts : Int → V) (colors : List Nat) (env : Env) (fl : Flags)
    (hv : fl.versionFlag = false)
    (hm : fl.promServer = "" ∨ fl.query = "" ∨ fl.duration = 0 ∨
      (fl.file = "" ∧ (fl.slackToken = "" ∨ fl.channel = ""))) :
    (runMain pf ts colors env fl = (Outcome.exitUsage, [ErrLine.usage]) ∧
      exitCodeOf Outcome.exitUsage = 1) ∧
    ∀ fl2 : Flags, fl2.versionFlag = true →
      runMain pf ts colors env fl2 = (Outcome.exitVersion, []) := by
  have hr : requiredMissing fl = true := by
    rw [requiredMissing, decide_eq_true_eq]
    exact hm
  refine ⟨⟨?_, rfl⟩, ?_⟩
  · rw [runMain]
    simp [hv, hr]
  · intro fl2 hv2
    rw [runMain]
    simp [hv2]

/-- Witness for the amended claim C8: flags with the query missing take
the usage exit with status 1, and the version flag takes the version
exit. -/
theorem usage_exit_required_witness :
    (runMain pfInt tsInt palette8 envOk flagsNoQuery =
        (Outcome.exitUsage, [ErrLine.usage]) ∧
      exitCodeOf Outcome.exitUsage = 1) ∧
    runMain pfInt tsInt palette8 envOk flagsVersionEmpty =
      (Outcome.exitVersion, []) := by
  have h := usage_exit_required pfInt tsInt palette8 envOk flagsNoQuery rfl
    (Or.inr (Or.inl rfl))
  exact ⟨h.1, h.2 flagsVersionEmpty rfl⟩

/-- Claim C10: on every fatal error path the line printed to the error
stream is the literal prefix `msg: ` followed by the underlying error's
text, the contextual message passed as the second argument of `fatal` is
discarded (any two contextual messages produce identical output), and
the exit status is exactly 1. -/
theorem fatal_discards_msg :
    (∀ e m : String,
      fatal (some e) m = some (ErrLine.fatalMsg ("msg: " ++ e), 1)) ∧
    (∀ e m1 m2 : String, fatal (some e) m1 = fatal (some e) m2) ∧
    exitCodeOf Outcome.exitFatal = 1 :=
  ⟨fun _ _ => rfl, fun _ _ _ => rfl, rfl⟩

end Promplot
